import Mathlib

/-!
Verification of the node-downtime report pipeline (final.py).

The pipeline cleans two spreadsheet tables (alarms and metrics), left-joins
them on IP address, and serves a filter callback that
  (1) restricts the merged table to a date window,
  (2) counts alarm rows per node alias inside the window,
  (3) keeps rows whose count matches a downtime-criteria token, and
  (4) groups by node alias, averaging availability.

Modelling conventions:
  - A timestamp is a Nat counting minutes; a calendar date corresponds to
    its midnight, day * minutesPerDay.  The date-picker hands the callback a
    date string which pandas parses to the midnight timestamp.
  - A spreadsheet cell that may be absent or unparseable is a Cell: missing
    (NaN/NaT/None), invalid (present but unparseable), or a parsed value.
    pd.to_datetime / pd.to_numeric with coerce turn invalid into missing.
  - Availability values are rationals; a missing availability (an alarm row
    whose IP has no metrics row) is none, and the pandas mean skips missing
    values, yielding none only when a group has no value at all.
  - Comparing the datetime column with a missing or unparseable date input
    raises a TypeError in pandas; the callback has no handler, so the model
    of update_table returns Except.error in that case.
-/

/-- Minutes in a day; a date string parses to the midnight timestamp. -/
def minutesPerDay : Nat := 1440

/-- Midnight timestamp of a calendar day, as pandas parses a date string. -/
def midnight (day : Nat) : Nat := day * minutesPerDay

/-- Calendar day of a timestamp. -/
def dayOf (t : Nat) : Nat := t / minutesPerDay

/-- Content of one spreadsheet cell subject to coercion: absent (NaN/NaT),
present but unparseable, or a parsed value. -/
inductive Cell (α : Type) where
  | missing : Cell α
  | invalid : Cell α
  | value : α → Cell α
deriving DecidableEq, Repr

/-- True iff the cell holds a parsed value. -/
def Cell.isValue {α : Type} : Cell α → Bool
  | .value _ => true
  | _ => false

/-- Raw alarm-spreadsheet row after the positional rename (file 1): Node
Alias, IP Address, Event may be absent; Alarm Time is a cell still to be
coerced to a timestamp. -/
structure RawAlarmRow where
  nodeAlias : Option String
  ipAddress : Option String
  event : Option String
  alarmTime : Cell Nat
deriving DecidableEq, Repr

/-- Cleaned alarm record: data1_clean guarantees the alias and the alarm
time are present and parsed. -/
structure AlarmRecord where
  nodeAlias : String
  ipAddress : Option String
  event : Option String
  alarmTime : Nat
deriving DecidableEq, Repr

/-- Coercion of the Alarm Time column, pd.to_datetime with errors coerce:
an unparseable cell becomes missing (NaT). -/
def coerceCell {α : Type} : Cell α → Cell α
  | .invalid => .missing
  | c => c

/-- Step of line 21 of final.py: dropna on Node Alias and Alarm Time. -/
def dropnaAliasTime (rows : List RawAlarmRow) : List RawAlarmRow :=
  rows.filter (fun r => r.nodeAlias.isSome && !(r.alarmTime == Cell.missing))

/-- Step of line 22 of final.py: coerce the Alarm Time column. -/
def coerceAlarmTime (rows : List RawAlarmRow) : List RawAlarmRow :=
  rows.map (fun r => { r with alarmTime := coerceCell r.alarmTime })

/-- Step of line 23 of final.py: dropna on the coerced Alarm Time, after
which both required fields are present; the surviving rows are read off as
typed alarm records. -/
def extractAlarms (rows : List RawAlarmRow) : List AlarmRecord :=
  rows.filterMap (fun r =>
    match r.nodeAlias, r.alarmTime with
    | some n, .value t => some ⟨n, r.ipAddress, r.event, t⟩
    | _, _ => none)

/-- Alarm-table cleaner, lines 11-24 of final.py (rename and column drops
are the identity on the modelled fields). -/
def data1_clean (rows : List RawAlarmRow) : List AlarmRecord :=
  extractAlarms (coerceAlarmTime (dropnaAliasTime rows))

/-- Raw metrics-spreadsheet row after the positional rename (file 2). -/
structure RawMetricsRow where
  nodeAlias : Option String
  ipAddress : Option String
  availability : Cell ℚ
  latency : Cell ℚ
  packetLoss : Cell ℚ
deriving DecidableEq, Repr

/-- Cleaned metrics record: the three numeric fields are parsed numbers;
data2_clean does not require the alias or the IP to be present. -/
structure MetricsRecord where
  nodeAlias : Option String
  ipAddress : Option String
  availability : ℚ
  latency : ℚ
  packetLoss : ℚ
deriving DecidableEq, Repr

/-- Lines 37-39 of final.py: pd.to_numeric with coerce on the three numeric
columns. -/
def coerceMetrics (rows : List RawMetricsRow) : List RawMetricsRow :=
  rows.map (fun r =>
    { r with
      availability := coerceCell r.availability
      latency := coerceCell r.latency
      packetLoss := coerceCell r.packetLoss })

/-- Line 40 of final.py: dropna on the three numeric columns; the surviving
rows are read off as typed metrics records. -/
def extractMetrics (rows : List RawMetricsRow) : List MetricsRecord :=
  rows.filterMap (fun r =>
    match r.availability, r.latency, r.packetLoss with
    | .value a, .value l, .value p =>
        some ⟨r.nodeAlias, r.ipAddress, a, l, p⟩
    | _, _, _ => none)

/-- Metrics-table cleaner, lines 26-41 of final.py: drop the 5-row header
block, coerce the numeric columns, drop rows with a missing numeric. -/
def data2_clean (rows : List RawMetricsRow) : List MetricsRecord :=
  extractMetrics (coerceMetrics (rows.drop 5))

/-- Row of the merged table, line 52 of final.py: alarm fields plus the
availability brought in by the left join (none when no metrics row shares
the IP). -/
structure MergedRecord where
  nodeAlias : String
  ipAddress : Option String
  event : Option String
  alarmTime : Nat
  availability : Option ℚ
deriving DecidableEq, Repr

/-- Rows that one alarm record contributes to the left join: it fans out
over the metrics rows sharing its IP Address, or yields a single row with
availability none when there is no match.  pandas merge matches missing
keys with missing keys, which Option equality reproduces. -/
def joinRows (metrics : List MetricsRecord) (a : AlarmRecord) : List MergedRecord :=
  match metrics.filter (fun m => m.ipAddress == a.ipAddress) with
  | [] => [⟨a.nodeAlias, a.ipAddress, a.event, a.alarmTime, none⟩]
  | ms => ms.map (fun m =>
      ⟨a.nodeAlias, a.ipAddress, a.event, a.alarmTime, some m.availability⟩)

/-- Left join, line 52 of final.py, assembled alarm row by alarm row in the
left order, as pandas merge with how left does. -/
def merged_df (alarms : List AlarmRecord) (metrics : List MetricsRecord) :
    List MergedRecord :=
  alarms.flatMap (joinRows metrics)

/-- Line 63 of final.py with the fallback of lines 67-68: smallest alarm
time of the merged table, defaulting to 2020-01-01 (day 18262 since epoch)
when the table is empty. -/
def min_date (merged : List MergedRecord) : Nat :=
  ((merged.map (fun r => r.alarmTime)).min?).getD (midnight 18262)

/-- Line 64 of final.py with the fallback of lines 69-70: largest alarm
time of the merged table, defaulting to 2020-12-31 (day 18627 since epoch)
when the table is empty. -/
def max_date (merged : List MergedRecord) : Nat :=
  ((merged.map (fun r => r.alarmTime)).max?).getD (midnight 18627)

/-- Date-window step, line 237 of final.py: keep rows whose alarm time lies
between the parsed start and end timestamps, both comparisons inclusive. -/
def dateFilter (merged : List MergedRecord) (s e : Nat) : List MergedRecord :=
  merged.filter (fun r => s ≤ r.alarmTime && r.alarmTime ≤ e)

/-- Lines 240-241 of final.py: value_counts of Node Alias over the filtered
rows, looked up per alias. -/
def downtimeCount (l : List MergedRecord) (key : String) : Nat :=
  (l.filter (fun r => r.nodeAlias == key)).length

/-- Line 244 of final.py: inner merge of the filtered rows with their own
value_counts table; every row finds its own alias, so the merge only adds
the count column and keeps the left order. -/
def withCounts (l : List MergedRecord) : List (MergedRecord × Nat) :=
  l.map (fun r => (r, downtimeCount l r.nodeAlias))

/-- Lines 247-254 of final.py: the downtime-criteria chain; a token other
than the four listed ones leaves the rows untouched. -/
def criteriaFilter (c : String) (l : List (MergedRecord × Nat)) :
    List (MergedRecord × Nat) :=
  if c = "1-3" then l.filter (fun p => 1 ≤ p.2 && p.2 ≤ 3)
  else if c = "4-5" then l.filter (fun p => 4 ≤ p.2 && p.2 ≤ 5)
  else if c = ">5" then l.filter (fun p => 5 < p.2)
  else if c = ">10" then l.filter (fun p => 10 < p.2)
  else l

/-- Output row of the callback: node alias and mean availability (none when
every availability in the group is missing, as the pandas mean of an
all-NaN group is NaN). -/
structure OutRow where
  nodeAlias : String
  availability : Option ℚ
deriving DecidableEq, Repr

/-- Insertion into a strictly sorted list of aliases, skipping duplicates;
building block of the sorted group-by index. -/
def insertKey (a : String) : List String → List String
  | [] => [a]
  | b :: bs =>
      if a = b then b :: bs
      else if a < b then a :: b :: bs
      else b :: insertKey a bs

/-- Distinct node aliases of the rows in ascending order: the group index
of pandas groupby, whose default sorts the keys. -/
def sortedAliases (l : List MergedRecord) : List String :=
  l.foldr (fun r ks => insertKey r.nodeAlias ks) []

/-- Mean availability of the rows carrying the given alias, skipping
missing values as the pandas mean does; none when no value remains. -/
def meanAvail (l : List MergedRecord) (key : String) : Option ℚ :=
  let vals := (l.filter (fun r => r.nodeAlias == key)).filterMap
    (fun r => r.availability)
  if vals = [] then none else some (vals.sum / vals.length)

/-- Lines 257-259 of final.py: groupby Node Alias with mean availability,
one output row per distinct alias, keys in ascending order. -/
def groupbyMeanAvail (l : List MergedRecord) : List OutRow :=
  (sortedAliases l).map (fun a => ⟨a, meanAvail l a⟩)

/-- Callback body, lines 235-262 of final.py.  The start and end inputs are
the parse results of the date strings handed in by the date picker; when
either is absent or unparseable the comparison of line 237 raises a
TypeError, which the callback does not catch, modelled as Except.error. -/
def update_table (merged : List MergedRecord) (start_date end_date : Cell Nat)
    (downtime_criteria : String) : Except String (List OutRow) :=
  match start_date, end_date with
  | .value s, .value e =>
      let filtered := dateFilter merged s e
      let counted := withCounts filtered
      let selected := criteriaFilter downtime_criteria counted
      .ok (groupbyMeanAvail (selected.map Prod.fst))
  | _, _ => .error "TypeError: invalid comparison of datetime column with unparseable date input"

/-- State-passing form of the callback: the process-wide merged table is
threaded through explicitly; the Python body only reads merged_df and binds
fresh locals, so the table leaves the call unchanged. -/
def update_table_proc (state : List MergedRecord) (start_date end_date : Cell Nat)
    (downtime_criteria : String) :
    List MergedRecord × Except String (List OutRow) :=
  (state, update_table state start_date end_date downtime_criteria)

deriving instance DecidableEq for Except

/-! Helper lemmas about the sorted group-by index. -/

theorem insertKey_cons (a b : String) (bs : List String) :
    insertKey a (b :: bs) =
      if a = b then b :: bs
      else if a < b then a :: b :: bs
      else b :: insertKey a bs := rfl

theorem mem_insertKey {x a : String} {ks : List String} :
    x ∈ insertKey a ks ↔ x = a ∨ x ∈ ks := by
  induction ks with
  | nil => simp [insertKey]
  | cons b bs ih =>
    rw [insertKey_cons]
    rcases eq_or_ne a b with rfl | hab
    · rw [if_pos rfl]
      simp only [List.mem_cons]
      tauto
    · rcases lt_or_ge a b with hlt | hge
      · rw [if_neg hab, if_pos hlt]
        simp only [List.mem_cons]
      · rw [if_neg hab, if_neg (not_lt_of_ge hge)]
        simp only [List.mem_cons, ih]
        tauto

theorem sorted_insertKey {a : String} {ks : List String}
    (h : ks.Sorted (· < ·)) : (insertKey a ks).Sorted (· < ·) := by
  induction ks with
  | nil => simp [insertKey]
  | cons b bs ih =>
    rw [List.sorted_cons] at h
    obtain ⟨hb, hbs⟩ := h
    rw [insertKey_cons]
    rcases eq_or_ne a b with rfl | hab
    · rw [if_pos rfl]
      exact List.sorted_cons.mpr ⟨hb, hbs⟩
    · rcases lt_or_ge a b with hlt | hge
      · rw [if_neg hab, if_pos hlt]
        refine List.sorted_cons.mpr ⟨?_, List.sorted_cons.mpr ⟨hb, hbs⟩⟩
        intro x hx
        rcases List.mem_cons.mp hx with rfl | hx
        · exact hlt
        · exact lt_trans hlt (hb x hx)
      · have hgt : b < a := lt_of_le_of_ne hge (Ne.symm hab)
        rw [if_neg hab, if_neg (not_lt_of_ge hge)]
        refine List.sorted_cons.mpr ⟨?_, ih hbs⟩
        intro x hx
        rcases mem_insertKey.mp hx with rfl | hx
        · exact hgt
        · exact hb x hx

theorem sortedAliases_cons (r : MergedRecord) (rs : List MergedRecord) :
    sortedAliases (r :: rs) = insertKey r.nodeAlias (sortedAliases rs) := rfl

theorem sortedAliases_sorted (l : List MergedRecord) :
    (sortedAliases l).Sorted (· < ·) := by
  induction l with
  | nil => simp [sortedAliases]
  | cons r rs ih => simpa [sortedAliases_cons] using sorted_insertKey ih

theorem mem_sortedAliases {x : String} {l : List MergedRecord} :
    x ∈ sortedAliases l ↔ ∃ r ∈ l, r.nodeAlias = x := by
  induction l with
  | nil => simp [sortedAliases]
  | cons r rs ih =>
    rw [sortedAliases_cons, mem_insertKey, ih]
    simp only [List.mem_cons]
    constructor
    · rintro (rfl | ⟨t, ht, rfl⟩)
      · exact ⟨r, Or.inl rfl, rfl⟩
      · exact ⟨t, Or.inr ht, rfl⟩
    · rintro ⟨t, (rfl | ht), rfl⟩
      · exact Or.inl rfl
      · exact Or.inr ⟨t, ht, rfl⟩

theorem sortedAliases_nodup (l : List MergedRecord) :
    (sortedAliases l).Nodup :=
  (sortedAliases_sorted l).nodup

theorem sortedAliases_perm {l l' : List MergedRecord} (h : l.Perm l') :
    sortedAliases l = sortedAliases l' := by
  have hmem : ∀ a, a ∈ sortedAliases l ↔ a ∈ sortedAliases l' := by
    intro a
    rw [mem_sortedAliases, mem_sortedAliases]
    constructor
    · rintro ⟨r, hr, rfl⟩
      exact ⟨r, h.mem_iff.mp hr, rfl⟩
    · rintro ⟨r, hr, rfl⟩
      exact ⟨r, h.mem_iff.mpr hr, rfl⟩
  exact List.eq_of_perm_of_sorted
    ((List.perm_ext_iff_of_nodup (sortedAliases_nodup l) (sortedAliases_nodup l')).mpr hmem)
    (sortedAliases_sorted l) (sortedAliases_sorted l')

theorem meanAvail_perm {l l' : List MergedRecord} (h : l.Perm l') (k : String) :
    meanAvail l k = meanAvail l' k := by
  have hp : ((l.filter (fun r => r.nodeAlias == k)).filterMap (fun r => r.availability)).Perm
      ((l'.filter (fun r => r.nodeAlias == k)).filterMap (fun r => r.availability)) :=
    (h.filter _).filterMap _
  unfold meanAvail
  rcases eq_or_ne ((l.filter (fun r => r.nodeAlias == k)).filterMap (fun r => r.availability)) [] with hv | hv
  · rw [hv] at hp ⊢
    rw [hp.symm.eq_nil]
  · have hv' : ((l'.filter (fun r => r.nodeAlias == k)).filterMap (fun r => r.availability)) ≠ [] := by
      intro hc
      rw [hc] at hp
      exact hv hp.eq_nil
    simp only [if_neg hv, if_neg hv', hp.sum_eq, hp.length_eq]

theorem groupbyMeanAvail_perm {l l' : List MergedRecord} (h : l.Perm l') :
    groupbyMeanAvail l = groupbyMeanAvail l' := by
  unfold groupbyMeanAvail
  rw [sortedAliases_perm h]
  exact List.map_congr_left (fun a _ => by rw [meanAvail_perm h])

theorem groupbyMeanAvail_keys (l : List MergedRecord) :
    (groupbyMeanAvail l).map (fun o => o.nodeAlias) = sortedAliases l := by
  unfold groupbyMeanAvail
  rw [List.map_map]
  exact List.map_id _

theorem withCounts_map_fst (l : List MergedRecord) :
    (withCounts l).map Prod.fst = l := by
  unfold withCounts
  rw [List.map_map]
  exact List.map_id _

theorem criteriaFilter_unknown {c : String}
    (hc : c ≠ "1-3" ∧ c ≠ "4-5" ∧ c ≠ ">5" ∧ c ≠ ">10")
    (l : List (MergedRecord × Nat)) : criteriaFilter c l = l := by
  unfold criteriaFilter
  rw [if_neg hc.1, if_neg hc.2.1, if_neg hc.2.2.1, if_neg hc.2.2.2]

theorem min_date_le {tbl : List MergedRecord} {r : MergedRecord} (hr : r ∈ tbl) :
    min_date tbl ≤ r.alarmTime := by
  unfold min_date
  have hmem : r.alarmTime ∈ tbl.map (fun x => x.alarmTime) :=
    List.mem_map_of_mem _ hr
  rcases hmin : (tbl.map (fun x => x.alarmTime)).min? with _ | m
  · rw [List.min?_eq_none_iff] at hmin
    rw [hmin] at hmem
    exact absurd hmem (List.not_mem_nil _)
  · rw [hmin]
    simpa using (List.min?_eq_some_iff'.mp hmin).2 _ hmem

theorem le_max_date {tbl : List MergedRecord} {r : MergedRecord} (hr : r ∈ tbl) :
    r.alarmTime ≤ max_date tbl := by
  unfold max_date
  have hmem : r.alarmTime ∈ tbl.map (fun x => x.alarmTime) :=
    List.mem_map_of_mem _ hr
  rcases hmax : (tbl.map (fun x => x.alarmTime)).max? with _ | m
  · rw [List.max?_eq_none_iff] at hmax
    rw [hmax] at hmem
    exact absurd hmem (List.not_mem_nil _)
  · rw [hmax]
    simpa using (List.max?_eq_some_iff'.mp hmax).2 _ hmem

/-! Lemmas about the left join. -/

theorem joinRows_ne_nil (metrics : List MetricsRecord) (a : AlarmRecord) :
    joinRows metrics a ≠ [] := by
  unfold joinRows
  split
  · simp
  · next ms hne =>
      cases hfil : List.filter (fun m => m.ipAddress == a.ipAddress) metrics with
      | nil => exact absurd hfil hne
      | cons x xs => simp [hfil]

theorem joinRows_spec (metrics : List MetricsRecord) (a : AlarmRecord) :
    ∀ r ∈ joinRows metrics a,
      r.nodeAlias = a.nodeAlias ∧ r.alarmTime = a.alarmTime ∧
      r.ipAddress = a.ipAddress ∧
      (r.availability = none ↔
        metrics.filter (fun m => m.ipAddress == a.ipAddress) = []) := by
  intro r hr
  unfold joinRows at hr
  split at hr
  · next heq =>
    rcases List.mem_singleton.mp hr with rfl
    exact ⟨rfl, rfl, rfl, by simp [heq]⟩
  · next ms hne =>
    rcases List.mem_map.mp hr with ⟨mm, hmm, rfl⟩
    exact ⟨rfl, rfl, rfl,
      ⟨fun h => Option.noConfusion h, fun h => (hne h).elim⟩⟩

/-! Concrete tables used by the counterexamples and witnesses. -/

def exPlain : List MergedRecord := [⟨"A", some "ip1", none, 10, none⟩]

def exPair : List MergedRecord :=
  [⟨"A", some "ip1", none, 10, none⟩, ⟨"A", some "ip1", none, 20, none⟩]

def exEndDay : MergedRecord := ⟨"A", none, none, midnight 5 + 1, none⟩

def exBucket : List MergedRecord :=
  List.replicate 2 (⟨"A", some "ip1", none, 10, some 99⟩ : MergedRecord) ++
  List.replicate 4 (⟨"B", some "ip2", none, 20, some 98⟩ : MergedRecord) ++
  List.replicate 11 (⟨"C", some "ip3", none, 30, some 97⟩ : MergedRecord)

/-! Claims. -/

/-- Claim C1, counterexample to the claim as stated: on the one-row merged
table exPlain, the unrecognized downtime-criteria token bogus yields a
non-empty result rather than the claimed empty sequence, and an absent
start date makes the invocation surface an error rather than return an
empty result. -/
theorem update_table_fail_soft_cex :
    update_table exPlain (Cell.value 0) (Cell.value (midnight 40)) "bogus" =
      .ok [⟨"A", none⟩] ∧
    (Except.ok [(⟨"A", none⟩ : OutRow)] ≠
      (.ok ([] : List OutRow) : Except String (List OutRow))) ∧
    (∃ msg, update_table exPlain Cell.missing (Cell.value (midnight 40)) "1-3" =
      .error msg) := by
  refine ⟨by decide, by decide, ⟨_, rfl⟩⟩

/-- Claim C1 as amended: when the start or the end date input is absent or
unparseable, the date comparison of line 237 raises and the error
propagates out of the callback (there is no empty-result fallback), and an
unrecognized downtime-criteria token applies no count filter at all, so
the callback returns the aggregate of the whole date-filtered subset
rather than an empty sequence. -/
theorem update_table_error_or_passthrough
    (merged : List MergedRecord) (s e : Cell Nat) (a b : Nat) (c : String)
    (hse : s.isValue = false ∨ e.isValue = false)
    (hc : c ≠ "1-3" ∧ c ≠ "4-5" ∧ c ≠ ">5" ∧ c ≠ ">10") :
    (∃ msg, update_table merged s e c = .error msg) ∧
    update_table merged (.value a) (.value b) c =
      .ok (groupbyMeanAvail (dateFilter merged a b)) := by
  constructor
  · cases s <;> cases e <;>
      first
        | exact ⟨_, rfl⟩
        | simp [Cell.isValue] at hse
  · show Except.ok (groupbyMeanAvail
      ((criteriaFilter c (withCounts (dateFilter merged a b))).map Prod.fst)) = _
    rw [criteriaFilter_unknown hc, withCounts_map_fst]

/-- Claim C1 witness for the amended theorem at concrete inputs. -/
theorem update_table_error_or_passthrough_witness :
    (∃ msg, update_table [] Cell.missing Cell.missing "x" = .error msg) ∧
    update_table [] (Cell.value 0) (Cell.value 0) "x" =
      .ok (groupbyMeanAvail (dateFilter [] 0 0)) :=
  update_table_error_or_passthrough [] Cell.missing Cell.missing 0 0 "x"
    (Or.inl rfl) ⟨by decide, by decide, by decide, by decide⟩

/-- Claim C2, counterexample to the claim as stated: on the two-row merged
table exPair, invoking the filter with the window equal to the global
minimum and maximum alarm times returns the per-node aggregate, a single
row, not the full two-row merged set. -/
theorem date_identity_cex :
    update_table exPair (Cell.value (min_date exPair))
      (Cell.value (max_date exPair)) "1-3" = .ok [⟨"A", none⟩] ∧
    ([(⟨"A", none⟩ : OutRow)]).length ≠ exPair.length := by
  refine ⟨by decide, by decide⟩

/-- Claim C2 as amended: the date-window step of the filter is an identity
when the window equals the global minimum and maximum of the alarm times;
every merged row survives line 237, and only the later aggregation keeps
the full invocation from returning the merged set itself. -/
theorem date_filter_identity (tbl : List MergedRecord) :
    dateFilter tbl (min_date tbl) (max_date tbl) = tbl := by
  unfold dateFilter
  apply List.filter_eq_self.mpr
  intro r hr
  simp only [Bool.and_eq_true, decide_eq_true_eq]
  exact ⟨min_date_le hr, le_max_date hr⟩

/-- Claim C3, counterexample to the claim as stated: the record exEndDay
carries a time of day one minute past midnight on the end day of the
window from day 0 to day 5, so it lies inside the inclusive day window,
yet the date-window step drops it, because the end date parses to midnight
of day 5. -/
theorem end_day_exclusion_cex :
    dayOf exEndDay.alarmTime = 5 ∧
    exEndDay ∉ dateFilter [exEndDay] (midnight 0) (midnight 5) := by
  refine ⟨by decide, by decide⟩

/-- Claim C3 as amended: the date-window step keeps exactly the records
whose alarm time lies between the two parsed bounds, both comparisons
inclusive at timestamp granularity; since a date input parses to midnight,
records on the end day with a later time of day are excluded. -/
theorem date_window_membership (tbl : List MergedRecord) (s e : Nat)
    (r : MergedRecord) :
    r ∈ dateFilter tbl s e ↔ r ∈ tbl ∧ s ≤ r.alarmTime ∧ r.alarmTime ≤ e := by
  simp [dateFilter, List.mem_filter, and_assoc]

/-- Claim C4: on a window whose per-node alarm counts are A two, B four and
C eleven, the bucket 4-5 returns exactly node B and the bucket over ten
returns exactly node C. -/
theorem bucket_example :
    update_table exBucket (Cell.value 0) (Cell.value (midnight 40)) "4-5" =
      .ok [⟨"B", some 98⟩] ∧
    update_table exBucket (Cell.value 0) (Cell.value (midnight 40)) ">10" =
      .ok [⟨"C", some 97⟩] := by
  constructor <;>
    (simp [update_table, dateFilter, withCounts, criteriaFilter, downtimeCount,
      groupbyMeanAvail, sortedAliases, insertKey, meanAvail, exBucket,
      List.replicate, midnight, minutesPerDay]
     norm_num)

/-- Claim C5: the left join keeps every alarm record, each merged row keeps
the node alias, alarm time and IP of its source alarm record, and a merged
row has missing availability exactly when no metrics row shares its IP
address. -/
theorem merger_left_join (alarms : List AlarmRecord)
    (metrics : List MetricsRecord) :
    (∀ a ∈ alarms, ∃ r ∈ merged_df alarms metrics,
      r.nodeAlias = a.nodeAlias ∧ r.alarmTime = a.alarmTime ∧
      r.ipAddress = a.ipAddress) ∧
    (∀ r ∈ merged_df alarms metrics, ∃ a ∈ alarms,
      r.nodeAlias = a.nodeAlias ∧ r.alarmTime = a.alarmTime ∧
      r.ipAddress = a.ipAddress ∧
      (r.availability = none ↔
        metrics.filter (fun m => m.ipAddress == a.ipAddress) = [])) := by
  constructor
  · intro a ha
    rcases hj : joinRows metrics a with _ | ⟨r, rs⟩
    · exact absurd hj (joinRows_ne_nil metrics a)
    · have hr : r ∈ joinRows metrics a := by
        rw [hj]
        exact List.mem_cons_self _ _
      obtain ⟨h1, h2, h3, _⟩ := joinRows_spec metrics a r hr
      exact ⟨r, List.mem_flatMap.mpr ⟨a, ha, hr⟩, h1, h2, h3⟩
  · intro r hr
    rcases List.mem_flatMap.mp hr with ⟨a, ha, hra⟩
    obtain ⟨h1, h2, h3, h4⟩ := joinRows_spec metrics a r hra
    exact ⟨a, ha, h1, h2, h3, h4⟩

/-- Claim C5 witness: a single alarm row joined against an empty metrics
table still appears in the merged output. -/
theorem merger_left_join_witness :
    ∃ r ∈ merged_df [⟨"A", some "ip1", none, 10⟩] [],
      r.nodeAlias = "A" ∧ r.alarmTime = 10 ∧ r.ipAddress = some "ip1" :=
  (merger_left_join [⟨"A", some "ip1", none, 10⟩] []).1
    ⟨"A", some "ip1", none, 10⟩ (List.mem_singleton.mpr rfl)

/-- Claim C6: every record in the cleaned alarm table stems from a raw row
whose Node Alias was present and whose Alarm Time cell parsed to a valid
timestamp; rows missing either field, or with an unparseable time, never
reach the output. -/
theorem alarm_clean_sound (rows : List RawAlarmRow) (rec : AlarmRecord)
    (h : rec ∈ data1_clean rows) :
    ∃ raw ∈ rows, raw.nodeAlias = some rec.nodeAlias ∧
      raw.alarmTime = Cell.value rec.alarmTime ∧
      raw.ipAddress = rec.ipAddress ∧ raw.event = rec.event := by
  unfold data1_clean extractAlarms at h
  rcases List.mem_filterMap.mp h with ⟨r, hr, hf⟩
  unfold coerceAlarmTime at hr
  rcases List.mem_map.mp hr with ⟨raw, hraw, rfl⟩
  have hraw2 : raw ∈ rows := List.mem_of_mem_filter hraw
  refine ⟨raw, hraw2, ?_⟩
  rcases hn : raw.nodeAlias with _ | n <;>
    rcases ht : raw.alarmTime with _ | _ | t <;>
      simp only [hn, ht, coerceCell] at hf <;>
        try exact Option.noConfusion hf
  obtain rfl : rec = ⟨n, raw.ipAddress, raw.event, t⟩ := (Option.some.inj hf).symm
  exact ⟨rfl, rfl, rfl, rfl⟩

/-- Claim C6 witness: a fully populated raw row survives the cleaner and is
traced back to itself. -/
theorem alarm_clean_sound_witness :
    ∃ raw ∈ [(⟨some "A", some "ip1", none, Cell.value 3⟩ : RawAlarmRow)],
      raw.nodeAlias = some "A" ∧ raw.alarmTime = Cell.value 3 ∧
      raw.ipAddress = some "ip1" ∧ raw.event = (none : Option String) :=
  alarm_clean_sound [⟨some "A", some "ip1", none, Cell.value 3⟩]
    ⟨"A", some "ip1", none, 3⟩ (by decide)

/-- Claim C7: every record in the cleaned metrics table stems from a raw
row, below the 5-row header block, whose availability, latency and packet
loss cells all parsed to numbers; a row with any missing or unparseable
numeric field is silently dropped. -/
theorem metrics_clean_sound (rows : List RawMetricsRow) (m : MetricsRecord)
    (h : m ∈ data2_clean rows) :
    ∃ raw ∈ rows, raw.availability = Cell.value m.availability ∧
      raw.latency = Cell.value m.latency ∧
      raw.packetLoss = Cell.value m.packetLoss ∧
      raw.nodeAlias = m.nodeAlias ∧ raw.ipAddress = m.ipAddress := by
  unfold data2_clean extractMetrics at h
  rcases List.mem_filterMap.mp h with ⟨r, hr, hf⟩
  unfold coerceMetrics at hr
  rcases List.mem_map.mp hr with ⟨raw, hraw, rfl⟩
  have hraw2 : raw ∈ rows := List.mem_of_mem_drop hraw
  refine ⟨raw, hraw2, ?_⟩
  rcases ha : raw.availability with _ | _ | av <;>
    rcases hl : raw.latency with _ | _ | la <;>
      rcases hp : raw.packetLoss with _ | _ | pa <;>
        simp only [ha, hl, hp, coerceCell] at hf <;>
          try exact Option.noConfusion hf
  obtain rfl : m = ⟨raw.nodeAlias, raw.ipAddress, av, la, pa⟩ :=
    (Option.some.inj hf).symm
  exact ⟨rfl, rfl, rfl, rfl, rfl⟩

/-- Header row placeholder of the metrics sheet: every modelled cell is
part of the 5-row preamble that data2_clean drops. -/
def headerRow : RawMetricsRow := ⟨none, none, .invalid, .invalid, .invalid⟩

/-- Claim C7 witness: a numeric row below the header block survives the
cleaner and is traced back to itself. -/
theorem metrics_clean_sound_witness :
    ∃ raw ∈ [headerRow, headerRow, headerRow, headerRow, headerRow,
        (⟨some "A", some "ip1", Cell.value 99, Cell.value 5, Cell.value 0⟩ :
          RawMetricsRow)],
      raw.availability = Cell.value (99 : ℚ) ∧
      raw.latency = Cell.value (5 : ℚ) ∧
      raw.packetLoss = Cell.value (0 : ℚ) ∧
      raw.nodeAlias = some "A" ∧ raw.ipAddress = some "ip1" :=
  metrics_clean_sound
    [headerRow, headerRow, headerRow, headerRow, headerRow,
      ⟨some "A", some "ip1", Cell.value 99, Cell.value 5, Cell.value 0⟩]
    ⟨some "A", some "ip1", 99, 5, 0⟩ (List.mem_singleton.mpr rfl)

/-- Claim C8: the aggregation of lines 257-259 produces exactly one row per
distinct node alias of its input, each row carries the mean availability of
that alias inside the input, and the whole output is invariant under
permutations of the input rows. -/
theorem aggregator_groupby (l l2 : List MergedRecord) (hperm : l.Perm l2) :
    ((groupbyMeanAvail l).map (fun o => o.nodeAlias)).Nodup ∧
    (∀ k : String,
      (∃ o ∈ groupbyMeanAvail l, o.nodeAlias = k) ↔ ∃ r ∈ l, r.nodeAlias = k) ∧
    (∀ o ∈ groupbyMeanAvail l, o.availability = meanAvail l o.nodeAlias) ∧
    groupbyMeanAvail l = groupbyMeanAvail l2 := by
  refine ⟨?_, ?_, ?_, groupbyMeanAvail_perm hperm⟩
  · rw [groupbyMeanAvail_keys]
    exact sortedAliases_nodup l
  · intro k
    constructor
    · rintro ⟨o, ho, rfl⟩
      have hk : o.nodeAlias ∈ (groupbyMeanAvail l).map (fun o => o.nodeAlias) :=
        List.mem_map_of_mem _ ho
      rw [groupbyMeanAvail_keys] at hk
      exact mem_sortedAliases.mp hk
    · rintro ⟨r, hr, rfl⟩
      have hk : r.nodeAlias ∈ sortedAliases l :=
        mem_sortedAliases.mpr ⟨r, hr, rfl⟩
      exact ⟨⟨r.nodeAlias, meanAvail l r.nodeAlias⟩,
        List.mem_map_of_mem _ hk, rfl⟩
  · intro o ho
    unfold groupbyMeanAvail at ho
    rcases List.mem_map.mp ho with ⟨a, _, rfl⟩
    rfl

/-- Claim C8 witness: the aggregate of the one-row table has a duplicate
free key column. -/
theorem aggregator_groupby_witness :
    ((groupbyMeanAvail exPlain).map (fun o => o.nodeAlias)).Nodup :=
  (aggregator_groupby exPlain exPlain (List.Perm.refl exPlain)).1

/-- Claim C9: the callback threaded through the process state leaves the
shared merged table untouched, and a second invocation on the resulting
state with the same inputs returns the same output as the first; the
Python body only reads merged_df and binds fresh locals, so the pure
state-passing translation returns the state unchanged. -/
theorem update_table_no_mutation (st : List MergedRecord) (s e : Cell Nat)
    (c : String) :
    (update_table_proc st s e c).1 = st ∧
    (update_table_proc (update_table_proc st s e c).1 s e c).2 =
      (update_table_proc st s e c).2 :=
  ⟨rfl, rfl⟩

/-- Claim C10: whenever the callback returns a result list, its rows are
sorted by node alias in strictly ascending order, because the group-by of
line 257 sorts its keys. -/
theorem update_table_output_sorted (merged : List MergedRecord)
    (s e : Cell Nat) (c : String) (out : List OutRow)
    (h : update_table merged s e c = .ok out) (hne : out ≠ []) :
    (out.map (fun o => o.nodeAlias)).Sorted (· < ·) := by
  cases s with
  | missing => exact Except.noConfusion h
  | invalid => exact Except.noConfusion h
  | value v =>
    cases e with
    | missing => exact Except.noConfusion h
    | invalid => exact Except.noConfusion h
    | value w =>
      have hout : groupbyMeanAvail
          ((criteriaFilter c (withCounts (dateFilter merged v w))).map Prod.fst) =
            out := Except.ok.inj h
      rw [← hout, groupbyMeanAvail_keys]
      exact sortedAliases_sorted _

/-- Claim C10 witness: the callback output on the one-row table exPlain is
the single-row list with key A, a sorted key column. -/
theorem update_table_output_sorted_witness :
    (([(⟨"A", none⟩ : OutRow)]).map (fun o => o.nodeAlias)).Sorted (· < ·) :=
  update_table_output_sorted exPlain (Cell.value 0) (Cell.value (midnight 40))
    "1-3" [⟨"A", none⟩] (by decide) (by decide)
